import Mathlib

/-!
Verification of `mpywrapper`'s `src/collections/userproperties.py`
(`UserProperties`, a `MutableMapping` facade that persists a property mapping
as JSON text inside a node's string-typed `notes` attribute).

Shallow embedding conventions:

* A Maya dependency node is reduced to the state this module can observe and
  mutate: whether the `notes` attribute exists and what string it holds
  (`notes : Option String`, `none` meaning the attribute is absent), plus the
  node-level lock flag queried by `mc.lockNode` (`locked : Bool`).  A freshly
  created, never-assigned string attribute is modelled as `some ""` — it reads
  back as empty text, exactly like an attribute explicitly set to `""`.
* The store's private `__properties__` dict is an insertion-ordered
  association list `List (K × V)`; `dictLookup` / `dictInsert` / `dictErase`
  reproduce Python dict indexing, assignment and `del`.
* The Extended JSON Codec (`json.dumps` / `json.loads` with the external
  `mdataparser` encoder and decoder classes, an external collaborator of this
  repository) is abstracted as a `Codec`: `encode` produces the serialized
  buffer and `decode` returns `none` exactly when `json.loads` would raise
  `json.JSONDecodeError`.
* Python exceptions become `Except PyErr`: `keyError` is the `KeyError`
  raised by dict indexing (the spec's `KeyNotFoundError`), `valueError` is
  the `ValueError` raised by `mc.getAttr` on a missing attribute (the spec's
  `AttributeMissingError`), `runtimeError` is the failure of `mc.setAttr` when
  the attribute is still absent (the "write fails upstream" case of spec
  §4.1), and `otherError` stands for any other host failure, used to state
  which exceptions a `try/except` block lets through.  Returning
  `Except.error` models the Python exception aborting the method before any
  further state change, so the caller's state is exactly what it was.
* Each method that mutates state takes the current `(properties, node)` and
  returns the new state; reads are pure functions of the state.
-/

/-- Python exceptions that the module can raise or catch. -/
inductive PyErr where
  | keyError
  | valueError
  | runtimeError
  | otherError
deriving DecidableEq

/-- The slice of a Maya dependency node that `UserProperties` observes:
the `notes` attribute (`none` when the attribute does not exist on the node)
and the node-level lock flag. -/
structure Node where
  notes : Option String
  locked : Bool
deriving DecidableEq

/-- The serialization scheme used for the buffer (`json.dumps` / `json.loads`
with the external `mdataparser` classes).  `decode s = none` models
`json.loads` raising `json.JSONDecodeError` on `s`. -/
structure Codec (K V : Type) where
  encode : List (K × V) → String
  decode : String → Option (List (K × V))

namespace UserProperties

variable {K V : Type} [DecidableEq K]

/-- Python dict read `d[key]` as a query: first (unique) binding of `key`. -/
def dictLookup (key : K) : List (K × V) → Option V
  | [] => none
  | (k, v) :: rest => if k = key then some v else dictLookup key rest

/-- Python dict deletion `del d[key]`: drop the binding of `key`. -/
def dictErase (key : K) : List (K × V) → List (K × V)
  | [] => []
  | (k, v) :: rest => if k = key then rest else (k, v) :: dictErase key rest

/-- Python dict assignment `d[key] = value`: replace in place, else append. -/
def dictInsert (key : K) (value : V) : List (K × V) → List (K × V)
  | [] => [(key, value)]
  | (k, v) :: rest =>
    if k = key then (k, value) :: rest else (k, v) :: dictInsert key value rest

/-- `stringutils.isNullOrEmpty` on the buffer text (a `None` result of
`mc.getAttr` is modelled as `""`, which this predicate also accepts). -/
def isNullOrEmpty (s : String) : Bool :=
  s == ""

/-- `UserProperties.ensureNotes`: if the `notes` attribute is absent and the
node is not lock-protected, create it (`mc.addAttr`, a cached string-typed
attribute, which reads back as empty text); otherwise do nothing. -/
def ensureNotes (node : Node) : Node :=
  if node.notes = none ∧ node.locked = false then { node with notes := some "" }
  else node

/-- `UserProperties.buffer`: `mc.getAttr` on the `notes` plug; raises
`ValueError` when the attribute does not exist. -/
def buffer (node : Node) : Except PyErr String :=
  match node.notes with
  | none => .error .valueError
  | some s => .ok s

/-- The `try/except ValueError` wrapper inside `tryGetBuffer`: converts a
`ValueError` into the empty string and lets every other outcome through. -/
def tryCatchValueError (r : Except PyErr String) : Except PyErr String :=
  match r with
  | .error .valueError => .ok ""
  | r => r

/-- `UserProperties.tryGetBuffer`: read the buffer, turning a missing
attribute into the empty string. -/
def tryGetBuffer (node : Node) : Except PyErr String :=
  tryCatchValueError (buffer node)

/-- `mc.setAttr` on the `notes` plug: fails (`RuntimeError`) when the
attribute is still absent (the lock-protected case of spec §4.1), otherwise
replaces its value wholesale. -/
def setAttrNotes (node : Node) (value : String) : Except PyErr Node :=
  match node.notes with
  | none => .error .runtimeError
  | some _ => .ok { node with notes := some value }

/-- `UserProperties.invalidate`: the write-back step.  No-op when the
in-memory mapping is empty (the redundancy check `len == 0`); otherwise
ensure the attribute exists and overwrite it with the serialized mapping. -/
def invalidate (c : Codec K V) (props : List (K × V)) (node : Node) :
    Except PyErr Node :=
  if props.length = 0 then .ok node
  else setAttrNotes (ensureNotes node) (c.encode props)

/-- `UserProperties.setBuffer`: ignore an empty buffer; otherwise ensure the
attribute exists and decode the buffer.  On success the decoded mapping
replaces the in-memory one and is flushed; on `json.JSONDecodeError` the
in-memory mapping is reset to empty and `invalidate` is called on that empty
mapping. -/
def setBuffer (c : Codec K V) (props : List (K × V)) (node : Node)
    (buf : String) : Except PyErr (List (K × V) × Node) :=
  if isNullOrEmpty buf then .ok (props, node)
  else
    let node1 := ensureNotes node
    match c.decode buf with
    | some m =>
      match invalidate c m node1 with
      | .ok node2 => .ok (m, node2)
      | .error e => .error e
    | none =>
      match invalidate c ([] : List (K × V)) node1 with
      | .ok node2 => .ok (([] : List (K × V)), node2)
      | .error e => .error e

/-- `UserProperties.reload`: `setBuffer(tryGetBuffer())`. -/
def reload (c : Codec K V) (props : List (K × V)) (node : Node) :
    Except PyErr (List (K × V) × Node) :=
  match tryGetBuffer node with
  | .ok buf => setBuffer c props node buf
  | .error e => .error e

/-- `UserProperties.__init__` after the handle is resolved: start from an
empty mapping and `reload` from the node's current buffer. -/
def construct (c : Codec K V) (node : Node) :
    Except PyErr (List (K × V) × Node) :=
  reload c ([] : List (K × V)) node

/-- `UserProperties.__getitem__`: dict indexing, `KeyError` on a missing
key. -/
def getitem (props : List (K × V)) (key : K) : Except PyErr V :=
  match dictLookup key props with
  | some v => .ok v
  | none => .error .keyError

/-- `UserProperties.__setitem__`: assign, then `invalidate`. -/
def setitem (c : Codec K V) (props : List (K × V)) (node : Node)
    (key : K) (value : V) : Except PyErr (List (K × V) × Node) :=
  let props1 := dictInsert key value props
  match invalidate c props1 node with
  | .ok node1 => .ok (props1, node1)
  | .error e => .error e

/-- `UserProperties.__delitem__`: `del` raises `KeyError` on a missing key
(before any flush); on success the binding is removed and `invalidate`
runs. -/
def delitem (c : Codec K V) (props : List (K × V)) (node : Node) (key : K) :
    Except PyErr (List (K × V) × Node) :=
  match dictLookup key props with
  | none => .error .keyError
  | some _ =>
    let props1 := dictErase key props
    match invalidate c props1 node with
    | .ok node1 => .ok (props1, node1)
    | .error e => .error e

/-- Concrete codec used to instantiate theorems at concrete inputs: keys and
values are `Unit`, a mapping of length `n` is encoded as `n` repetitions of
the character `a`, and decoding accepts strings over the characters `a` and
`b` (so distinct buffers can decode to the same mapping) and rejects
everything else as a decode failure. -/
def wCodec : Codec Unit Unit where
  encode m := String.mk (List.replicate m.length 'a')
  decode s :=
    if s.data.all (fun ch => ch == 'a' || ch == 'b') then
      some (List.replicate s.data.length ((), ()))
    else none

/-- Trivial codec on `Nat` keys and values, used to instantiate theorems whose
conclusions never reach the codec. -/
def dummyCodec : Codec Nat Nat where
  encode _ := "{}"
  decode _ := none

end UserProperties

namespace UserProperties

variable {K V : Type}

theorem isNullOrEmpty_eq_false {s : String} (hs : s ≠ "") :
    isNullOrEmpty s = false := by
  simp [isNullOrEmpty, hs]

theorem ensureNotes_of_some {node : Node} {s : String} (h : node.notes = some s) :
    ensureNotes node = node := by
  simp [ensureNotes, h]

theorem ensureNotes_of_locked {node : Node} (h : node.locked = true) :
    ensureNotes node = node := by
  simp [ensureNotes, h]

theorem tryGetBuffer_of_some {node : Node} {s : String} (h : node.notes = some s) :
    tryGetBuffer node = .ok s := by
  simp [tryGetBuffer, buffer, tryCatchValueError, h]

theorem tryGetBuffer_of_none {node : Node} (h : node.notes = none) :
    tryGetBuffer node = .ok "" := by
  simp [tryGetBuffer, buffer, tryCatchValueError, h]

theorem setAttrNotes_of_some {node : Node} {s : String} (h : node.notes = some s)
    (v : String) : setAttrNotes node v = .ok { node with notes := some v } := by
  simp [setAttrNotes, h]

theorem invalidate_of_empty (c : Codec K V) {props : List (K × V)} (node : Node)
    (h : props.length = 0) : invalidate c props node = .ok node := by
  simp [invalidate, h]

theorem invalidate_of_some (c : Codec K V) {props : List (K × V)} {node : Node}
    {s : String} (hn : node.notes = some s) (hp : props ≠ []) :
    invalidate c props node = .ok { node with notes := some (c.encode props) } := by
  rw [invalidate, if_neg, ensureNotes_of_some hn, setAttrNotes_of_some hn]
  simp [hp]

theorem setBuffer_empty (c : Codec K V) (props : List (K × V)) (node : Node) :
    setBuffer c props node "" = .ok (props, node) := by
  simp [setBuffer, isNullOrEmpty]

theorem setBuffer_decode_fail (c : Codec K V) (props : List (K × V)) {node : Node}
    {s t : String} (hn : node.notes = some t) (hs : s ≠ "")
    (hd : c.decode s = none) :
    setBuffer c props node s = .ok ([], node) := by
  rw [setBuffer, isNullOrEmpty_eq_false hs]
  simp only [Bool.false_eq_true, if_false, ensureNotes_of_some hn, hd]
  rw [invalidate_of_empty c node List.length_nil]

theorem setBuffer_decode_ok_ne (c : Codec K V) (props : List (K × V)) {node : Node}
    {s t : String} {m : List (K × V)} (hn : node.notes = some t) (hs : s ≠ "")
    (hd : c.decode s = some m) (hm : m ≠ []) :
    setBuffer c props node s = .ok (m, { node with notes := some (c.encode m) }) := by
  rw [setBuffer, isNullOrEmpty_eq_false hs]
  simp only [Bool.false_eq_true, if_false, ensureNotes_of_some hn, hd]
  rw [invalidate_of_some c hn hm]

theorem setBuffer_decode_ok_nil (c : Codec K V) (props : List (K × V)) {node : Node}
    {s t : String} (hn : node.notes = some t) (hs : s ≠ "")
    (hd : c.decode s = some ([] : List (K × V))) :
    setBuffer c props node s = .ok ([], node) := by
  rw [setBuffer, isNullOrEmpty_eq_false hs]
  simp only [Bool.false_eq_true, if_false, ensureNotes_of_some hn, hd]
  rw [invalidate_of_empty c node List.length_nil]

theorem reload_of_some (c : Codec K V) (props : List (K × V)) {node : Node}
    {s : String} (hn : node.notes = some s) :
    reload c props node = setBuffer c props node s := by
  rw [reload, tryGetBuffer_of_some hn]

theorem reload_of_none (c : Codec K V) (props : List (K × V)) {node : Node}
    (hn : node.notes = none) : reload c props node = .ok (props, node) := by
  rw [reload, tryGetBuffer_of_none hn]
  exact setBuffer_empty c props node

end UserProperties

namespace UserProperties

theorem replicate_length_unit (m : List (Unit × Unit)) :
    List.replicate m.length ((), ()) = m := by
  induction m with
  | nil => rfl
  | cons hd tl ih => simp [List.replicate, ih]

theorem wCodec_symm (m : List (Unit × Unit)) :
    wCodec.decode (wCodec.encode m) = some m := by
  show (if (List.replicate m.length 'a').all (fun ch => ch == 'a' || ch == 'b') then
      some (List.replicate (List.replicate m.length 'a').length ((), ()))
    else none) = some m
  rw [if_pos, List.length_replicate, replicate_length_unit]
  simp [List.all_eq_true, List.mem_replicate]

end UserProperties

namespace UserProperties

variable {K V : Type}

/-- Claim C1, counterexample to the claim as stated: a node whose `notes`
attribute holds the non-empty, undecodable text `x`.  Constructing a store
over it resets the in-memory mapping to empty, but the backing attribute is
NOT overwritten to represent an empty mapping — it still holds `x`, which is
not the encoding of the empty mapping. -/
theorem C1_counterexample :
    construct wCodec ⟨some "x", false⟩ = .ok ([], ⟨some "x", false⟩) ∧
    wCodec.decode "x" = none ∧
    "x" ≠ wCodec.encode ([] : List (Unit × Unit)) :=
  ⟨rfl, rfl, by decide⟩

/-- Claim C1, amended: if loading a non-empty buffer fails to decode, the
store resets its in-memory mapping to empty and calls `invalidate`, but the
empty-mapping redundancy check makes that flush a no-op, so after
construction the backing attribute still holds its original (corrupt)
content — the no-op-empty-flush path, not a discard-and-flush overwrite. -/
theorem C1_theorem (c : Codec K V) (node : Node) (s : String)
    (h1 : node.notes = some s) (h2 : s ≠ "") (h3 : c.decode s = none) :
    construct c node = .ok ([], node) := by
  rw [construct, reload_of_some c _ h1]
  exact setBuffer_decode_fail c _ h1 h2 h3

/-- Claim C1, witness for the amended theorem at a concrete corrupt buffer. -/
theorem C1_witness :
    construct wCodec ⟨some "xy", false⟩ = .ok ([], ⟨some "xy", false⟩) :=
  C1_theorem wCodec ⟨some "xy", false⟩ "xy" rfl (by decide) (by decide)

/-- Claim C3: whenever the in-memory mapping is empty, `invalidate` (the
flush step) performs no write at all — the node, including the existing
content of its `notes` attribute and the attribute's very existence, is
returned unchanged and no error is raised. -/
theorem C3_theorem (c : Codec K V) (props : List (K × V)) (node : Node)
    (h : props.length = 0) : invalidate c props node = .ok node :=
  invalidate_of_empty c node h

/-- Claim C3, witness: flushing an empty mapping over a locked node whose
attribute holds foreign text leaves that text in place. -/
theorem C3_witness :
    invalidate wCodec ([] : List (Unit × Unit)) ⟨some "keep", true⟩ =
      .ok ⟨some "keep", true⟩ :=
  C3_theorem wCodec [] ⟨some "keep", true⟩ rfl

/-- Claim C4: on a key absent from the in-memory mapping, `__getitem__` and
`__delitem__` both fail with the `KeyError` that realizes the spec's
`KeyNotFoundError`, and the failing delete never reaches `invalidate`: the
error return carries no new state, so the mapping and the node (hence the
backing attribute) are exactly as they were. -/
theorem C4_theorem [DecidableEq K] (c : Codec K V) (props : List (K × V))
    (node : Node) (key : K) (h : dictLookup key props = none) :
    getitem props key = .error PyErr.keyError ∧
    delitem c props node key = .error PyErr.keyError := by
  constructor
  · rw [getitem, h]
  · rw [delitem, h]

/-- Claim C4, witness at a concrete absent key over a non-empty mapping. -/
theorem C4_witness :
    getitem [(1, 2)] 5 = .error PyErr.keyError ∧
    delitem dummyCodec [(1, 2)] ⟨some "t", false⟩ 5 = .error PyErr.keyError :=
  C4_theorem dummyCodec [(1, 2)] ⟨some "t", false⟩ 5 (by decide)

/-- Claim C5: deleting the only key of a one-entry store empties the
in-memory mapping, but the empty-mapping flush is skipped, so the node keeps
its previous non-empty serialized content; a store constructed over the same
node afterwards decodes that content and reloads the deleted property. -/
theorem C5_theorem [DecidableEq K] (c : Codec K V) (k : K) (v : V)
    (node : Node) (s : String) (h1 : node.notes = some s) (h2 : s ≠ "")
    (h3 : c.decode s = some [(k, v)]) :
    delitem c [(k, v)] node k = .ok ([], node) ∧
    construct c node =
      .ok ([(k, v)], { node with notes := some (c.encode [(k, v)]) }) := by
  constructor
  · have hl : dictLookup k [(k, v)] = some v := by simp [dictLookup]
    have he : dictErase k [(k, v)] = [] := by simp [dictErase]
    rw [delitem, hl]
    simp only [he, invalidate_of_empty c node List.length_nil]
  · rw [construct, reload_of_some c _ h1]
    exact setBuffer_decode_ok_ne c _ h1 h2 h3 (by simp)

/-- Claim C5, witness: a one-entry store over a node whose buffer encodes
exactly that entry. -/
theorem C5_witness :
    delitem wCodec [((), ())] ⟨some "a", false⟩ () = .ok ([], ⟨some "a", false⟩) ∧
    construct wCodec ⟨some "a", false⟩ = .ok ([((), ())], ⟨some "a", false⟩) :=
  C5_theorem wCodec () () ⟨some "a", false⟩ "a" rfl (by decide) (by decide)

end UserProperties

namespace UserProperties

variable {K V : Type}

/-- Claim C2, counterexample to the claim as stated: the in-memory mapping is
empty and the node's attribute holds text that decodes to a non-empty
mapping.  The flush of the empty mapping is skipped by the redundancy check,
so the fresh store reloads the old attribute content and does not reproduce
the empty mapping — even though the codec satisfies
`decode (encode x) = some x` (shown here at both mappings involved). -/
theorem C2_counterexample :
    invalidate wCodec ([] : List (Unit × Unit)) ⟨some "a", false⟩ =
      .ok ⟨some "a", false⟩ ∧
    construct wCodec ⟨some "a", false⟩ = .ok ([((), ())], ⟨some "a", false⟩) ∧
    wCodec.decode (wCodec.encode ([] : List (Unit × Unit))) = some [] ∧
    wCodec.decode (wCodec.encode [((), ())]) = some [((), ())] ∧
    ([((), ())] : List (Unit × Unit)) ≠ [] :=
  ⟨rfl, rfl, rfl, rfl, by decide⟩

/-- Claim C2, amended: the round-trip holds for every NON-EMPTY mapping (the
empty mapping is never flushed, so nothing forces the attribute to agree with
it).  For a non-empty mapping `m` with a non-empty encoding, on a node whose
attribute can be written (the attribute exists, or the node is not
lock-protected so `ensureNotes` can create it), `invalidate` persists
`encode m` and a fresh store constructed over the resulting node decodes it
back to an equal mapping. -/
theorem C2_theorem (c : Codec K V) (m : List (K × V)) (node : Node)
    (hm : m ≠ []) (henc : c.encode m ≠ "")
    (hdec : c.decode (c.encode m) = some m)
    (hwritable : node.notes ≠ none ∨ node.locked = false) :
    invalidate c m node = .ok { ensureNotes node with notes := some (c.encode m) } ∧
    construct c { ensureNotes node with notes := some (c.encode m) } =
      .ok (m, { ensureNotes node with notes := some (c.encode m) }) := by
  have hen : ∃ t, (ensureNotes node).notes = some t := by
    rcases hv : node.notes with _ | t
    · rcases hwritable with h | h
      · exact absurd hv h
      · exact ⟨"", by simp [ensureNotes, hv, h]⟩
    · exact ⟨t, by rw [ensureNotes_of_some hv, hv]⟩
  obtain ⟨t, ht⟩ := hen
  constructor
  · rw [invalidate, if_neg (by simp [hm])]
    exact setAttrNotes_of_some ht (c.encode m)
  · have h1 : ({ ensureNotes node with notes := some (c.encode m) } : Node).notes
        = some (c.encode m) := rfl
    rw [construct, reload_of_some c _ h1]
    exact setBuffer_decode_ok_ne c _ h1 henc hdec hm

/-- Claim C2, witness for the amended theorem: a singleton mapping flushed
onto a node that does not yet carry the attribute, then reloaded by a fresh
store. -/
theorem C2_witness :
    invalidate wCodec [((), ())] ⟨none, false⟩ = .ok ⟨some "a", false⟩ ∧
    construct wCodec ⟨some "a", false⟩ = .ok ([((), ())], ⟨some "a", false⟩) :=
  C2_theorem wCodec [((), ())] ⟨none, false⟩ (by decide) (by decide) (by decide)
    (Or.inr rfl)

/-- Claim C6: a reload that finds non-empty text decoding to a non-empty
mapping immediately re-serializes the decoded mapping and writes it back to
the `notes` attribute — reload (and therefore construction) mutates the node
rather than just reading it. -/
theorem C6_theorem (c : Codec K V) (props : List (K × V)) (node : Node)
    (s : String) (m : List (K × V)) (h1 : node.notes = some s) (h2 : s ≠ "")
    (h3 : c.decode s = some m) (h4 : m ≠ []) :
    reload c props node = .ok (m, { node with notes := some (c.encode m) }) := by
  rw [reload_of_some c props h1]
  exact setBuffer_decode_ok_ne c props h1 h2 h3 h4

/-- Claim C6, witness: the buffer `b` decodes to a mapping whose canonical
encoding is `a`, so the reload visibly rewrites the attribute from `b` to
`a`. -/
theorem C6_witness :
    reload wCodec ([] : List (Unit × Unit)) ⟨some "b", false⟩ =
      .ok ([((), ())], ⟨some "a", false⟩) :=
  C6_theorem wCodec [] ⟨some "b", false⟩ "b" [((), ())] rfl (by decide)
    (by decide) (by decide)

/-- Claim C7: reload is idempotent when the codec is symmetric
(`decode (encode x) = some x`, the assumption spec §9 places on the Extended
JSON Codec): whatever state a first reload produces, a second reload with no
intervening external change reproduces exactly the same mapping (and node). -/
theorem C7_theorem (c : Codec K V) (props : List (K × V)) (node : Node)
    (hsym : ∀ mm : List (K × V), c.decode (c.encode mm) = some mm)
    (p : List (K × V)) (n : Node) (h : reload c props node = .ok (p, n)) :
    reload c p n = .ok (p, n) := by
  cases hn : node.notes with
  | none =>
    rw [reload_of_none c props hn] at h
    simp only [Except.ok.injEq, Prod.mk.injEq] at h
    obtain ⟨hp, hnode⟩ := h
    rw [← hp, ← hnode]
    exact reload_of_none c props hn
  | some s =>
    rw [reload_of_some c props hn] at h
    by_cases hs : s = ""
    · subst hs
      rw [setBuffer_empty] at h
      simp only [Except.ok.injEq, Prod.mk.injEq] at h
      obtain ⟨hp, hnode⟩ := h
      rw [← hp, ← hnode]
      rw [reload_of_some c props hn]
      exact setBuffer_empty c props node
    · cases hd : c.decode s with
      | none =>
        rw [setBuffer_decode_fail c props hn hs hd] at h
        simp only [Except.ok.injEq, Prod.mk.injEq] at h
        obtain ⟨hp, hnode⟩ := h
        rw [← hp, ← hnode]
        rw [reload_of_some c _ hn]
        exact setBuffer_decode_fail c _ hn hs hd
      | some m =>
        by_cases hm : m = []
        · subst hm
          rw [setBuffer_decode_ok_nil c props hn hs hd] at h
          simp only [Except.ok.injEq, Prod.mk.injEq] at h
          obtain ⟨hp, hnode⟩ := h
          rw [← hp, ← hnode]
          rw [reload_of_some c _ hn]
          exact setBuffer_decode_ok_nil c _ hn hs hd
        · rw [setBuffer_decode_ok_ne c props hn hs hd hm] at h
          simp only [Except.ok.injEq, Prod.mk.injEq] at h
          obtain ⟨hp, hnode⟩ := h
          rw [← hp, ← hnode]
          have h1 : ({ node with notes := some (c.encode m) } : Node).notes
              = some (c.encode m) := rfl
          rw [reload_of_some c m h1]
          by_cases he : c.encode m = ""
          · rw [he]
            exact setBuffer_empty c m _
          · exact setBuffer_decode_ok_ne c m h1 he (hsym m) hm

/-- Claim C7, witness: two successive reloads over a node whose buffer is the
canonical encoding of a singleton mapping. -/
theorem C7_witness :
    reload wCodec [((), ())] ⟨some "a", false⟩ =
      .ok ([((), ())], ⟨some "a", false⟩) :=
  C7_theorem wCodec [] ⟨some "a", false⟩ wCodec_symm [((), ())]
    ⟨some "a", false⟩ rfl

end UserProperties

namespace UserProperties

variable {K V : Type}

/-- Claim C8: `ensureNotes` never raises (it is a total function here), does
nothing on a lock-protected node, is idempotent, changes the attribute state
exactly when the attribute is absent and the node is not lock-protected, and
in that single case creates the attribute (which then reads back as empty
text). -/
theorem C8_theorem (node : Node) :
    (node.locked = true → ensureNotes node = node) ∧
    ensureNotes (ensureNotes node) = ensureNotes node ∧
    ((ensureNotes node).notes ≠ node.notes ↔
      node.notes = none ∧ node.locked = false) ∧
    (node.notes = none → node.locked = false →
      ensureNotes node = { node with notes := some "" }) := by
  refine ⟨fun h => ensureNotes_of_locked h, ?_, ?_, ?_⟩
  · by_cases h : node.notes = none ∧ node.locked = false
    · have h2 : ensureNotes node = { node with notes := some "" } := by
        rw [ensureNotes, if_pos h]
      rw [h2]
      exact ensureNotes_of_some (s := "") rfl
    · have h2 : ensureNotes node = node := by rw [ensureNotes, if_neg h]
      rw [h2]
      exact h2
  · constructor
    · intro hne
      by_contra hcon
      rw [ensureNotes, if_neg hcon] at hne
      exact hne rfl
    · rintro ⟨h1, h2⟩
      rw [ensureNotes, if_pos ⟨h1, h2⟩, h1]
      simp
  · intro h1 h2
    rw [ensureNotes, if_pos ⟨h1, h2⟩]

/-- Claim C8, witness: a lock-protected node lacking the attribute passes
through `ensureNotes` unchanged. -/
theorem C8_witness : ensureNotes ⟨none, true⟩ = ⟨none, true⟩ :=
  (C8_theorem ⟨none, true⟩).1 rfl

/-- Claim C9, counterexample to the claim as stated: on a node whose `notes`
attribute EXISTS but holds empty text, `tryGetBuffer` also returns the empty
string while the strict read succeeds — so "returns an empty string exactly
when the strict read fails because the attribute does not exist" is too
strong an equivalence. -/
theorem C9_counterexample :
    tryGetBuffer ⟨some "", false⟩ = .ok "" ∧
    buffer ⟨some "", false⟩ = .ok "" ∧
    buffer ⟨some "", false⟩ ≠ .error PyErr.valueError :=
  ⟨rfl, rfl, by simp [buffer]⟩

/-- Claim C9, amended: the strict read `buffer` fails with the `ValueError`
that realizes the spec's `AttributeMissingError` exactly when the attribute
is absent; `tryGetBuffer` converts that failure (and only that failure) into
an empty-string result, passes successful reads through unchanged — so it can
also return the empty string when the attribute exists holding empty text —
and propagates every other error unchanged. -/
theorem C9_theorem (node : Node) :
    (buffer node = .error PyErr.valueError ↔ node.notes = none) ∧
    (node.notes = none → tryGetBuffer node = .ok "") ∧
    (∀ e : PyErr, e ≠ PyErr.valueError →
      tryCatchValueError (.error e) = .error e) ∧
    (∀ s : String, buffer node = .ok s → tryGetBuffer node = .ok s) := by
  refine ⟨?_, fun h => tryGetBuffer_of_none h, ?_, ?_⟩
  · cases hn : node.notes with
    | none => simp [buffer, hn]
    | some s => simp [buffer, hn]
  · intro e he
    cases e with
    | valueError => exact absurd rfl he
    | keyError => rfl
    | runtimeError => rfl
    | otherError => rfl
  · intro s hs
    rw [tryGetBuffer, hs]
    rfl

/-- Claim C9, witness: a locked node without the attribute reads back as the
empty string through the tolerant path. -/
theorem C9_witness : tryGetBuffer ⟨none, true⟩ = .ok "" :=
  (C9_theorem ⟨none, true⟩).2.1 rfl

/-- Claim C10: loading an empty buffer is a complete no-op — `setBuffer`
returns the mapping and the node untouched — and a reload that finds no text
(missing attribute, or attribute holding empty text) likewise leaves an
existing non-empty in-memory mapping unchanged. -/
theorem C10_theorem (c : Codec K V) (props : List (K × V)) (node : Node) :
    setBuffer c props node "" = .ok (props, node) ∧
    (node.notes = none → reload c props node = .ok (props, node)) ∧
    (node.notes = some "" → reload c props node = .ok (props, node)) := by
  refine ⟨setBuffer_empty c props node, fun h => reload_of_none c props h,
    fun h => ?_⟩
  rw [reload_of_some c props h]
  exact setBuffer_empty c props node

/-- Claim C10, witness: a reload over an attribute-less node does not clear a
non-empty in-memory mapping. -/
theorem C10_witness :
    reload wCodec [((), ())] ⟨none, false⟩ = .ok ([((), ())], ⟨none, false⟩) :=
  (C10_theorem wCodec [((), ())] ⟨none, false⟩).2.1 rfl

end UserProperties
